import Mathlib

/-!
Shallow embedding of `src/utils.py` of the `cancer_analyses_python`
repository: the expression-matrix assembler `format_tcga_rnaseq` and the
paired-sample filter `get_paired_tcga_exprs`, together with theorems that
settle the frozen claims about them.

Modelling conventions:
* A pandas `DataFrame` in long format is a list of column labels plus a
  list of rows; a row is an association list from column label to value.
* Cell values are strings or exact rationals (`Value`).  The claims under
  scrutiny never do arithmetic on expression values, only equality tests
  (for `drop_duplicates`), so `Rat` stands in for the float column.
* Fallible code returns `Except TcgaError _`.  The Python code raises
  library exceptions; the spec's error taxonomy names them, and the
  embedding uses those taxonomy names: a pandas `AttributeError`/`KeyError`
  on a missing table column is `SchemaError`, `FileNotFoundError` on a
  missing input file is `MissingFileError`, and a `KeyError` on a missing
  workflow column inside a file is `MalformedFileError`.
-/

/-- Cell values of a table: strings or exact numbers. -/
inductive Value where
  | str (s : String)
  | num (q : Rat)
deriving DecidableEq, Repr

/-- A row of a long-format table: association list column-label → value. -/
abbrev Row := List (String × Value)

/-- Column access on a row.  Pandas guarantees every row carries a value
for every column of its frame; absent keys default to the empty string
(never reached on frames whose rows cover their columns). -/
def Row.getV (r : Row) (c : String) : Value :=
  (List.lookup c r).getD (Value.str "")

/-- A long-format pandas `DataFrame`: column labels and rows. -/
structure LongDF where
  cols : List String
  rows : List Row
deriving DecidableEq, Repr

/-- Error taxonomy of the spec, standing for the library exceptions the
Python code lets escape. -/
inductive TcgaError where
  | MissingFileError (path : String)
  | MalformedFileError (path : String)
  | SchemaError (col : String)
deriving DecidableEq, Repr

instance {ε α : Type} [DecidableEq ε] [DecidableEq α] :
    DecidableEq (Except ε α) := fun x y =>
  match x, y with
  | .ok a, .ok b =>
    if h : a = b then .isTrue (by rw [h])
    else .isFalse (fun hx => by cases hx; exact h rfl)
  | .ok _, .error _ => .isFalse (fun hx => by cases hx)
  | .error _, .ok _ => .isFalse (fun hx => by cases hx)
  | .error e, .error f =>
    if h : e = f then .isTrue (by rw [h])
    else .isFalse (fun hx => by cases hx; exact h rfl)

/-! ### Substring matching (`Series.str.contains("-01B|-01C")`)

The regex `-01B|-01C` has no metacharacters besides the alternation, so it
matches exactly when the string contains `-01B` or `-01C` as a substring
anywhere. -/

/-- Test whether `p` is an initial segment of `l`. -/
def startsWith : List Char → List Char → Bool
  | _, [] => true
  | [], _ :: _ => false
  | a :: l, b :: p => a == b && startsWith l p

/-- Test whether `p` occurs as a contiguous sublist of `l`. -/
def hasSub : List Char → List Char → Bool
  | [], p => startsWith [] p
  | a :: l, p => startsWith (a :: l) p || hasSub l p

/-- The FFPE/OCT exclusion test of line 187:
`sample_id.str.contains("-01B|-01C")`.  On a non-string cell the embedding
returns `false`; the claims only exercise string-valued `sample_id`. -/
def ffpeVal : Value → Bool
  | .str s => hasSub s.toList "-01B".toList || hasSub s.toList "-01C".toList
  | .num _ => false

/-! ### The paired-sample filter `get_paired_tcga_exprs` (lines 172–197) -/

/-- Line 185: the allow-list of sample types (`keep_columns` in the source). -/
def keep_columns : List String :=
  ["Primary Tumor", "Solid Tissue Normal",
   "Primary Blood Derived Cancer - Peripheral Blood"]

/-- Line 190: the columns the filter projects to. -/
def projCols : List String :=
  ["gene_name", "tpm", "subject_id", "tumor_or_normal", "tumor_type"]

/-- Line 186: row passes the sample-type allow-list. -/
def landOk (r : Row) : Bool :=
  (keep_columns.map Value.str).contains (r.getV "land_sample_type")

/-- Lines 186–187: rows surviving the sample-type restriction and the FFPE
exclusion, in order. -/
def survivors (df : LongDF) : List Row :=
  (df.rows.filter landOk).filter (fun r => !ffpeVal (r.getV "sample_id"))

/-- Line 190: project a row to the five analysis columns. -/
def projRow (r : Row) : Row :=
  projCols.map (fun c => (c, r.getV c))

/-- Row is flagged Tumor. -/
def isTumor (r : Row) : Bool := r.getV "tumor_or_normal" == Value.str "Tumor"

/-- Row is flagged Normal. -/
def isNormal (r : Row) : Bool := r.getV "tumor_or_normal" == Value.str "Normal"

/-- Model of `df.groupby(key).filter(lambda x: any(p(x)))`: keep a row iff some row
of the same `key`-group satisfies `p`.  Pandas preserves original row
order, which a plain `List.filter` reproduces. -/
def groupAny (rows : List Row) (key : String) (p : Row → Bool) : List Row :=
  rows.filter (fun r => rows.any (fun r2 => (r2.getV key == r.getV key) && p r2))

/-- Scan keeping the rows not seen before (helper of `dedupFirst`). -/
def dedupSeen : List Row → List Row → List Row
  | _, [] => []
  | seen, r :: rs =>
    if r ∈ seen then dedupSeen seen rs else r :: dedupSeen (r :: seen) rs

/-- Model of `drop_duplicates()` with the default `keep="first"`: drop every later
exact duplicate of an earlier row. -/
def dedupFirst (l : List Row) : List Row := dedupSeen [] l

/-- Columns the filter reads; missing any one raises (`SchemaError` in the
spec's taxonomy). -/
def requiredCols : List String :=
  ["land_sample_type", "sample_id", "subject_id", "gene_name", "tpm",
   "tumor_or_normal", "tumor_type"]

/-- The filter `get_paired_tcga_exprs` (lines 172–197).  Line 186 reads
`land_sample_type`, line 187 reads `sample_id`, line 190 selects the five
analysis columns (first missing one raises), lines 193–194 keep the rows
whose subject group contains a Tumor row and, on that result, the rows
whose subject group contains a Normal row, then `drop_duplicates`. -/
def get_paired_tcga_exprs (df : LongDF) : Except TcgaError LongDF :=
  if "land_sample_type" ∈ df.cols then
    if "sample_id" ∈ df.cols then
      match projCols.filter (fun c => !df.cols.contains c) with
      | c :: _ => .error (.SchemaError c)
      | [] =>
        let all_cancers := (survivors df).map projRow
        let tumor_paired := groupAny all_cancers "subject_id" isTumor
        let paired := groupAny tumor_paired "subject_id" isNormal
        .ok ⟨projCols, dedupFirst paired⟩
    else .error (.SchemaError "sample_id")
  else .error (.SchemaError "land_sample_type")

/-- A subject `s` is paired within `rows`: some row of `s` is flagged
Tumor and some row of `s` is flagged Normal. -/
def subjPaired (rows : List Row) (s : Value) : Prop :=
  (∃ r ∈ rows, r.getV "subject_id" = s ∧ isTumor r) ∧
  (∃ r ∈ rows, r.getV "subject_id" = s ∧ isNormal r)

instance (rows : List Row) (s : Value) : Decidable (subjPaired rows s) := by
  unfold subjPaired
  infer_instance

/-! ### The expression-matrix assembler `format_tcga_rnaseq` (lines 130–169) -/

/-- A row of the sample sheet (`gdc_sample_sheet`): the four columns the
assembler reads. -/
structure SheetRow where
  fileId : String
  fileName : String
  sampleId : String
  dataCategory : String
deriving DecidableEq, Repr

/-- The composite gene key the assembler indexes by. -/
structure GeneKey where
  gene_id : String
  gene_name : String
deriving DecidableEq, Repr

/-- One parsed quantification file (after `read_csv(sep="\t", header=1)`):
the numeric column labels and, per gene row, the cell of each column
(`none` models NA). -/
structure QRow where
  key : GeneKey
  vals : List (String × Option Rat)
deriving DecidableEq, Repr

/-- A quantification file: its numeric columns and its rows. -/
structure QFile where
  cols : List String
  rows : List QRow
deriving DecidableEq, Repr

/-- The file system seen by the assembler: association list path → file;
absent paths raise `FileNotFoundError` in the source. -/
abbrev FileSys := List (String × QFile)

/-- Path built by `pjoin(root_dir, row["File ID"], row["File Name"])`. -/
def sheetPath (rootDir : String) (row : SheetRow) : String :=
  rootDir ++ "/" ++ row.fileId ++ "/" ++ row.fileName

/-- Model of `df.dropna()`: keep only the rows with no missing cell. -/
def dropna (rows : List QRow) : List QRow :=
  rows.filter (fun r => r.vals.all (fun cv => cv.2.isSome))

/-- The gene index a file contributes: its gene keys after `dropna`. -/
def geneKeysOf (f : QFile) : List GeneKey :=
  (dropna f.rows).map (·.key)

/-- Python `dict` update `d[k] = v`: overwrite the value if `k` is already
a key, else append; key order is first-insertion order. -/
def dictInsert {K V : Type} [DecidableEq K] (d : List (K × V)) (k : K) (v : V) :
    List (K × V) :=
  if d.any (fun kv => kv.1 == k) then
    d.map (fun kv => if kv.1 = k then (k, v) else kv)
  else d ++ [(k, v)]

/-- Build a Python `dict` from a stream of insertions (`Series.to_dict`):
first-insertion key order, last value wins. -/
def dictOfList {K V : Type} [DecidableEq K] (l : List (K × V)) : List (K × V) :=
  l.foldl (fun d kv => dictInsert d kv.1 kv.2) []

/-- Line 163: `df.dropna().set_index(["gene_id","gene_name"])[workflow].to_dict()`,
the mapping gene key → chosen workflow value of one file.  The `getD`
defaults are never reached on files whose rows cover their columns. -/
def columnDict (f : QFile) (workflow : String) : List (GeneKey × Rat) :=
  dictOfList ((dropna f.rows).map
    (fun r => (r.key, ((List.lookup workflow r.vals).getD none).getD 0)))

/-- The `records` loop of lines 152–163: one pass over the sample-sheet
rows; a missing file aborts with `MissingFileError` (the commented-out
existence check leaves `read_csv` to raise), a present file without the
workflow column aborts with `MalformedFileError`. -/
def buildRecords (rootDir : String) (fs : FileSys) (workflow : String) :
    List SheetRow → List (String × List (GeneKey × Rat)) →
    Except TcgaError (List (String × List (GeneKey × Rat)))
  | [], recs => .ok recs
  | row :: rest, recs =>
    let path := sheetPath rootDir row
    match List.lookup path fs with
    | none => .error (.MissingFileError path)
    | some f =>
      if workflow ∈ f.cols then
        buildRecords rootDir fs workflow rest (dictInsert recs row.sampleId (columnDict f workflow))
      else .error (.MalformedFileError path)

/-- Line 147: the sample-sheet rows with
`Data Category == "Transcriptome Profiling"`. -/
def rnaseqRows (sheet : List SheetRow) : List SheetRow :=
  sheet.filter (fun r => r.dataCategory == "Transcriptome Profiling")

/-- Row index of `pd.DataFrame(records)`: union of the per-column key
lists, in order of first appearance. -/
def keyUnion (ls : List (List GeneKey)) : List GeneKey :=
  ls.foldl (fun acc ks => acc ++ ks.filter (fun k => !acc.contains k)) []

/-- The frame `format_tcga_rnaseq` returns: a row index of composite gene
keys and one column per sample holding that sample's gene → value dict. -/
structure WideDF where
  indexKeys : List GeneKey
  sampleCols : List (String × List (GeneKey × Rat))
deriving DecidableEq, Repr

/-- The assembler `format_tcga_rnaseq` (lines 130–169): keep the sample-sheet rows with
`Data Category == "Transcriptome Profiling"` (line 147), run the records
loop, and build `pd.DataFrame(records)`.  Lines 166–167 call
`tcga_df.reset_index().rename(..., inplace=True)`: `rename` mutates the
temporary frame `reset_index()` returned and yields `None`, which is
discarded, so the returned frame still has the composite gene key as its
index and only sample columns. -/
def format_tcga_rnaseq (sheet : List SheetRow) (rootDir : String)
    (fs : FileSys) (workflow : String) : Except TcgaError WideDF :=
  (buildRecords rootDir fs workflow (rnaseqRows sheet) []).map (fun recs =>
    ⟨keyUnion (recs.map (fun sc => sc.2.map Prod.fst)), recs⟩)

/-- The row list the filter returns on success (before being wrapped into
a frame with columns `projCols`). -/
def pairedRows (df : LongDF) : List Row :=
  dedupFirst (groupAny (groupAny ((survivors df).map projRow) "subject_id" isTumor)
    "subject_id" isNormal)

/-! ### Concrete tables and runs used to instantiate the theorems -/

/-- Tumor row of subject S1 (passes both restrictions). -/
def rowTumorS1 : Row :=
  [("land_sample_type", .str "Primary Tumor"),
   ("sample_id", .str "TCGA-AA-0001-01A"),
   ("subject_id", .str "S1"), ("gene_name", .str "TP53"), ("tpm", .num 5),
   ("tumor_or_normal", .str "Tumor"), ("tumor_type", .str "BRCA")]

/-- Normal row of subject S1 (passes both restrictions). -/
def rowNormalS1 : Row :=
  [("land_sample_type", .str "Solid Tissue Normal"),
   ("sample_id", .str "TCGA-AA-0001-11A"),
   ("subject_id", .str "S1"), ("gene_name", .str "TP53"), ("tpm", .num 2),
   ("tumor_or_normal", .str "Normal"), ("tumor_type", .str "BRCA")]

/-- Tumor-only subject S2. -/
def rowTumorS2 : Row :=
  [("land_sample_type", .str "Primary Tumor"),
   ("sample_id", .str "TCGA-BB-0002-01A"),
   ("subject_id", .str "S2"), ("gene_name", .str "TP53"), ("tpm", .num 9),
   ("tumor_or_normal", .str "Tumor"), ("tumor_type", .str "LUAD")]

/-- Row whose `sample_id` contains `-01B` in a non-final position. -/
def rowMid : Row :=
  [("land_sample_type", .str "Primary Tumor"),
   ("sample_id", .str "TCGA-01B-02A"),
   ("subject_id", .str "S9"), ("gene_name", .str "TP53"), ("tpm", .num 1),
   ("tumor_or_normal", .str "Tumor"), ("tumor_type", .str "BRCA")]

/-- Long table with one paired subject (S1) and one tumor-only subject (S2). -/
def dfExample : LongDF := ⟨requiredCols, [rowTumorS1, rowNormalS1, rowTumorS2]⟩

/-- The filter's output on `dfExample`: the two S1 rows, projected. -/
def dfExampleOut : LongDF := ⟨projCols, [projRow rowTumorS1, projRow rowNormalS1]⟩

/-- Long table whose only subject is tumor-only. -/
def dfOnlyTumor : LongDF := ⟨requiredCols, [rowTumorS2]⟩

/-- Long table missing the `land_sample_type` column. -/
def dfNoLand : LongDF :=
  ⟨["sample_id", "subject_id", "gene_name", "tpm", "tumor_or_normal", "tumor_type"], []⟩

/-- Long table holding the mid-position FFPE row. -/
def dfMid : LongDF := ⟨requiredCols, [rowMid]⟩

/-- Two-gene quantification file of a well-formed assembly run. -/
def qf1 : QFile :=
  ⟨["tpm_unstranded"],
   [⟨⟨"ENSG1", "G1"⟩, [("tpm_unstranded", some 5)]⟩,
    ⟨⟨"ENSG2", "G2"⟩, [("tpm_unstranded", some 7)]⟩]⟩

/-- Second file of the well-formed run, same gene index. -/
def qf2 : QFile :=
  ⟨["tpm_unstranded"],
   [⟨⟨"ENSG1", "G1"⟩, [("tpm_unstranded", some 1)]⟩,
    ⟨⟨"ENSG2", "G2"⟩, [("tpm_unstranded", some 3)]⟩]⟩

/-- One-file sample sheet. -/
def sheet1 : List SheetRow := [⟨"F1", "f1", "S1", "Transcriptome Profiling"⟩]

/-- Two-file sample sheet with distinct sample identifiers. -/
def sheetGood : List SheetRow :=
  [⟨"F1", "f1", "S1", "Transcriptome Profiling"⟩,
   ⟨"F2", "f2", "S2", "Transcriptome Profiling"⟩]

/-- File system of the well-formed runs. -/
def fsGood : FileSys := [("root/F1/f1", qf1), ("root/F2/f2", qf2)]

/-- The shared gene index of `qf1` and `qf2`. -/
def Lgood : List GeneKey := [⟨"ENSG1", "G1"⟩, ⟨"ENSG2", "G2"⟩]

/-- Gene key duplicated inside `qfDup`. -/
def gkDup : GeneKey := ⟨"ENSG1", "G1"⟩

/-- File whose gene index repeats `gkDup`. -/
def qfDup : QFile :=
  ⟨["tpm_unstranded"],
   [⟨gkDup, [("tpm_unstranded", some 1)]⟩, ⟨gkDup, [("tpm_unstranded", some 2)]⟩]⟩

/-- Sheet listing two files that map to the same sample identifier. -/
def sheetDup : List SheetRow :=
  [⟨"F1", "f1", "S", "Transcriptome Profiling"⟩,
   ⟨"F2", "f2", "S", "Transcriptome Profiling"⟩]

/-- File system of the duplicate-sample run. -/
def fsDup : FileSys := [("root/F1/f1", qfDup), ("root/F2/f2", qfDup)]

/-- What the duplicate-sample run actually returns: one column, one row. -/
def wdfDup : WideDF := ⟨[gkDup], [("S", [(gkDup, 2)])]⟩

/-- Empty file system: every expected path is missing. -/
def fsMissing : FileSys := []

/-- File lacking the `tpm_unstranded` workflow column. -/
def qfNoCol : QFile := ⟨["unstranded"], []⟩

/-- File system whose only file lacks the requested workflow column. -/
def fsNoCol : FileSys := [("root/F1/f1", qfNoCol)]

/-! ### Lemmas about the filter pipeline -/

theorem dedupSeen_mem (l : List Row) :
    ∀ (seen : List Row) (a : Row), a ∈ dedupSeen seen l ↔ a ∈ l ∧ a ∉ seen := by
  induction l with
  | nil => intro seen a; simp [dedupSeen]
  | cons r rs ih =>
    intro seen a
    by_cases hr : r ∈ seen
    · rw [dedupSeen, if_pos hr, ih]
      constructor
      · exact fun ⟨h1, h2⟩ => ⟨List.mem_cons_of_mem _ h1, h2⟩
      · rintro ⟨h1, h2⟩
        rcases List.mem_cons.mp h1 with rfl | h1
        · exact absurd hr h2
        · exact ⟨h1, h2⟩
    · rw [dedupSeen, if_neg hr]
      by_cases ha : a = r
      · subst ha; simp [hr]
      · simp only [List.mem_cons, ha, false_or, ih, List.mem_cons, not_or]

theorem dedupFirst_mem (l : List Row) (a : Row) : a ∈ dedupFirst l ↔ a ∈ l := by
  rw [dedupFirst, dedupSeen_mem]
  simp

theorem groupAny_mem (rows : List Row) (key : String) (p : Row → Bool) (r : Row) :
    r ∈ groupAny rows key p ↔
      r ∈ rows ∧ ∃ r2 ∈ rows, r2.getV key = r.getV key ∧ p r2 = true := by
  simp [groupAny, List.mem_filter, List.any_eq_true]

theorem survivors_mem (df : LongDF) (r : Row) :
    r ∈ survivors df ↔
      r ∈ df.rows ∧ landOk r = true ∧ ffpeVal (r.getV "sample_id") = false := by
  simp only [survivors, List.mem_filter, Bool.not_eq_true', and_assoc]

theorem projRow_getV (r : Row) (c : String) (hc : c ∈ projCols) :
    (projRow r).getV c = r.getV c := by
  fin_cases hc <;> rfl

theorem get_paired_ok_of_cols (df : LongDF)
    (h : ∀ c ∈ requiredCols, c ∈ df.cols) :
    get_paired_tcga_exprs df = .ok ⟨projCols, pairedRows df⟩ := by
  have h1 : "land_sample_type" ∈ df.cols := h _ (by simp [requiredCols])
  have h2 : "sample_id" ∈ df.cols := h _ (by simp [requiredCols])
  have h3 : projCols.filter (fun c => !df.cols.contains c) = [] := by
    apply List.filter_eq_nil_iff.mpr
    intro c hc
    have hcr : c ∈ requiredCols := by fin_cases hc <;> simp [requiredCols]
    simpa using h c hcr
  rw [get_paired_tcga_exprs, if_pos h1, if_pos h2, h3]
  rfl

theorem get_paired_ok_inv (df : LongDF) (o : LongDF)
    (h : get_paired_tcga_exprs df = .ok o) :
    (∀ c ∈ requiredCols, c ∈ df.cols) ∧ o = ⟨projCols, pairedRows df⟩ := by
  by_cases h1 : "land_sample_type" ∈ df.cols
  · rw [get_paired_tcga_exprs, if_pos h1] at h
    by_cases h2 : "sample_id" ∈ df.cols
    · rw [if_pos h2] at h
      cases hf : projCols.filter (fun c => !df.cols.contains c) with
      | cons c cs => rw [hf] at h; exact absurd h (by simp)
      | nil =>
        rw [hf] at h
        have hproj : ∀ c ∈ projCols, c ∈ df.cols := by
          intro c hc
          have := List.filter_eq_nil_iff.mp hf c hc
          simpa using this
        refine ⟨?_, ?_⟩
        · intro c hc
          fin_cases hc
          · exact h1
          · exact h2
          · exact hproj _ (by simp [projCols])
          · exact hproj _ (by simp [projCols])
          · exact hproj _ (by simp [projCols])
          · exact hproj _ (by simp [projCols])
          · exact hproj _ (by simp [projCols])
        · have := h
          simp only [Except.ok.injEq] at this
          exact this.symm
    · rw [if_neg h2] at h; exact absurd h (by simp)
  · rw [get_paired_tcga_exprs, if_neg h1] at h; exact absurd h (by simp)

theorem projRow_subject (r : Row) :
    (projRow r).getV "subject_id" = r.getV "subject_id" :=
  projRow_getV r _ (by simp [projCols])

theorem projRow_isTumor (r : Row) : isTumor (projRow r) = isTumor r := by
  rw [isTumor, isTumor, projRow_getV r _ (by simp [projCols])]

theorem projRow_isNormal (r : Row) : isNormal (projRow r) = isNormal r := by
  rw [isNormal, isNormal, projRow_getV r _ (by simp [projCols])]

theorem subjPaired_proj (rows : List Row) (s : Value) :
    subjPaired (rows.map projRow) s ↔ subjPaired rows s := by
  have flag : ∀ (p : Row → Bool), (∀ r, p (projRow r) = p r) →
      ((∃ q ∈ rows.map projRow, q.getV "subject_id" = s ∧ p q) ↔
       (∃ r ∈ rows, r.getV "subject_id" = s ∧ p r)) := by
    intro p hp
    constructor
    · rintro ⟨q, hq, hs, hpq⟩
      rcases List.mem_map.mp hq with ⟨r, hr, rfl⟩
      exact ⟨r, hr, by rwa [projRow_subject] at hs, by rwa [hp] at hpq⟩
    · rintro ⟨r, hr, hs, hpr⟩
      exact ⟨projRow r, List.mem_map_of_mem _ hr,
        by rwa [projRow_subject], by rwa [hp]⟩
  exact and_congr (flag isTumor projRow_isTumor) (flag isNormal projRow_isNormal)

/-- Membership characterisation of the filter's result rows: exactly the
projections of surviving rows whose subject is paired among the
survivors. -/
theorem pairedRows_mem (df : LongDF) (q : Row) :
    q ∈ pairedRows df ↔
      (∃ r ∈ survivors df, q = projRow r) ∧
      subjPaired (survivors df) (q.getV "subject_id") := by
  rw [pairedRows, dedupFirst_mem]
  rw [groupAny_mem]
  constructor
  · rintro ⟨hq1, r2, hr2, hr2s, hr2n⟩
    rw [groupAny_mem] at hq1 hr2
    obtain ⟨hqA, r1, hr1, hr1s, hr1t⟩ := hq1
    have hpair : subjPaired ((survivors df).map projRow) (q.getV "subject_id") :=
      ⟨⟨r1, hr1, hr1s, hr1t⟩, ⟨r2, hr2.1, hr2s, hr2n⟩⟩
    exact ⟨List.mem_map.mp hqA |>.imp (fun r hr => ⟨hr.1, hr.2.symm⟩),
      (subjPaired_proj _ _).mp hpair⟩
  · rintro ⟨⟨r, hr, rfl⟩, hpair⟩
    have hA : projRow r ∈ (survivors df).map projRow := List.mem_map_of_mem _ hr
    have hpairA : subjPaired ((survivors df).map projRow)
        ((projRow r).getV "subject_id") := (subjPaired_proj _ _).mpr hpair
    obtain ⟨⟨r1, hr1, hr1s, hr1t⟩, ⟨r2, hr2, hr2s, hr2n⟩⟩ := hpairA
    have hq1 : projRow r ∈ groupAny ((survivors df).map projRow) "subject_id" isTumor :=
      (groupAny_mem _ _ _ _).mpr ⟨hA, r1, hr1, hr1s, hr1t⟩
    have hr2' : r2 ∈ groupAny ((survivors df).map projRow) "subject_id" isTumor :=
      (groupAny_mem _ _ _ _).mpr ⟨hr2, r1, hr1, by rw [hr1s, ← hr2s], hr1t⟩
    exact ⟨hq1, r2, hr2', hr2s, hr2n⟩

/-! ### Correctness of the substring matcher -/

theorem startsWith_iff (p : List Char) :
    ∀ l, startsWith l p = true ↔ ∃ t, l = p ++ t := by
  induction p with
  | nil => intro l; simp [startsWith]
  | cons b p ih =>
    intro l
    cases l with
    | nil =>
      simp [startsWith]
    | cons a l =>
      rw [startsWith]
      simp only [Bool.and_eq_true, beq_iff_eq, ih, List.cons_append, List.cons.injEq]
      constructor
      · rintro ⟨rfl, t, rfl⟩; exact ⟨t, rfl, rfl⟩
      · rintro ⟨t, rfl, rfl⟩; exact ⟨rfl, t, rfl⟩

theorem hasSub_iff (p : List Char) :
    ∀ l, hasSub l p = true ↔ ∃ a b, l = a ++ p ++ b := by
  intro l
  induction l with
  | nil =>
    rw [hasSub, startsWith_iff]
    constructor
    · rintro ⟨t, ht⟩
      rcases List.append_eq_nil.mp ht.symm with ⟨hp, ht'⟩
      exact ⟨[], [], by simp [hp]⟩
    · rintro ⟨a, b, hab⟩
      rcases List.append_eq_nil.mp (List.append_eq_nil.mp hab.symm).1 with ⟨_, hp⟩
      exact ⟨[], by simp [hp]⟩
  | cons c l ih =>
    rw [hasSub, Bool.or_eq_true, startsWith_iff, ih]
    constructor
    · rintro (⟨t, ht⟩ | ⟨a, b, hab⟩)
      · exact ⟨[], t, by simp [ht]⟩
      · exact ⟨c :: a, b, by simp [hab]⟩
    · rintro ⟨a, b, hab⟩
      cases a with
      | nil => exact Or.inl ⟨b, by simpa using hab⟩
      | cons x a =>
        rcases (List.cons.injEq .. ▸ hab : c = x ∧ l = a ++ p ++ b) with ⟨_, hl⟩
        exact Or.inr ⟨a, b, hl⟩

/-- Lift the list-level substring characterisation to `String`. -/
theorem toList_sub_iff (s p : String) :
    (∃ la lb, s.toList = la ++ p.toList ++ lb) ↔ ∃ a b : String, s = a ++ p ++ b := by
  constructor
  · rintro ⟨la, lb, h⟩
    refine ⟨⟨la⟩, ⟨lb⟩, String.ext ?_⟩
    simpa [String.toList] using h
  · rintro ⟨a, b, rfl⟩
    exact ⟨a.toList, b.toList, by simp [String.toList]⟩

/-- The FFPE test on a string cell holds exactly when `-01B` or `-01C`
occurs as a substring anywhere in the string. -/
theorem ffpeVal_str_iff (s : String) :
    ffpeVal (.str s) = true ↔
      (∃ a b : String, s = a ++ "-01B" ++ b) ∨
      (∃ a b : String, s = a ++ "-01C" ++ b) := by
  rw [ffpeVal, Bool.or_eq_true, hasSub_iff, hasSub_iff]
  rw [show ("-01B".toList : List Char) = "-01B".toList from rfl]
  exact or_congr (toList_sub_iff s "-01B") (toList_sub_iff s "-01C")

/-! ### Lemmas about the assembler -/

theorem dictInsert_not_mem {K V : Type} [DecidableEq K]
    (d : List (K × V)) (k : K) (v : V) (h : k ∉ d.map Prod.fst) :
    dictInsert d k v = d ++ [(k, v)] := by
  rw [dictInsert, if_neg]
  simp only [List.any_eq_true, beq_iff_eq, not_exists, not_and]
  intro kv hkv hk
  exact h (List.mem_map.mpr ⟨kv, hkv, hk⟩)

theorem dictFold_nodup {K V : Type} [DecidableEq K] :
    ∀ (l d : List (K × V)), ((d ++ l).map Prod.fst).Nodup →
      l.foldl (fun d kv => dictInsert d kv.1 kv.2) d = d ++ l := by
  intro l
  induction l with
  | nil => intro d _; simp
  | cons kv l ih =>
    intro d hd
    have hk : kv.1 ∉ d.map Prod.fst := by
      intro hmem
      have := (List.nodup_append.mp (by simpa using hd)).2.2
      exact this hmem (by simp)
    rw [List.foldl_cons, dictInsert_not_mem d kv.1 kv.2 hk]
    have := ih (d ++ [kv]) (by simpa using hd)
    simpa using this

theorem dictOfList_nodup {K V : Type} [DecidableEq K]
    (l : List (K × V)) (h : (l.map Prod.fst).Nodup) : dictOfList l = l := by
  have := dictFold_nodup l ([] : List (K × V)) (by simpa using h)
  simpa [dictOfList] using this

/-- Keys of a per-sample dict: the file's post-`dropna` gene keys, when
those are duplicate-free. -/
theorem columnDict_keys (f : QFile) (w : String) (h : (geneKeysOf f).Nodup) :
    (columnDict f w).map Prod.fst = geneKeysOf f := by
  rw [columnDict]
  have hmap : (((dropna f.rows).map
      (fun r => (r.key, ((List.lookup w r.vals).getD none).getD 0))).map Prod.fst)
      = geneKeysOf f := by
    rw [List.map_map]; rfl
  rw [dictOfList_nodup _ (by rw [hmap]; exact h), hmap]

theorem keyUnion_const (L : List GeneKey) :
    ∀ ls, ls ≠ [] → (∀ x ∈ ls, x = L) → keyUnion ls = L := by
  have aux : ∀ ls : List (List GeneKey), (∀ x ∈ ls, x = L) →
      ls.foldl (fun acc ks => acc ++ ks.filter (fun k => !acc.contains k)) L = L := by
    intro ls
    induction ls with
    | nil => intro _; rfl
    | cons x ls ih =>
      intro hx
      have hxL : x = L := hx x (by simp)
      subst hxL
      rw [List.foldl_cons]
      have : x.filter (fun k => !x.contains k) = [] := by
        apply List.filter_eq_nil_iff.mpr
        intro k hk
        simp [hk]
      rw [this, List.append_nil]
      exact ih (fun y hy => hx y (by simp [hy]))
  intro ls hne hx
  cases ls with
  | nil => exact absurd rfl hne
  | cons x ls =>
    have hxL : x = L := hx x (by simp)
    subst hxL
    rw [keyUnion, List.foldl_cons]
    have hfirst : ([] : List GeneKey) ++ x.filter (fun k => !List.contains [] k) = x := by
      simp
    rw [hfirst]
    exact aux ls (fun y hy => hx y (by simp [hy]))

theorem buildRecords_cons (rootDir : String) (fs : FileSys) (w : String)
    (row : SheetRow) (rest : List SheetRow)
    (recs : List (String × List (GeneKey × Rat))) :
    buildRecords rootDir fs w (row :: rest) recs =
      match List.lookup (sheetPath rootDir row) fs with
      | none => .error (.MissingFileError (sheetPath rootDir row))
      | some f =>
        if w ∈ f.cols then
          buildRecords rootDir fs w rest (dictInsert recs row.sampleId (columnDict f w))
        else .error (.MalformedFileError (sheetPath rootDir row)) := rfl

theorem buildRecords_cons_some (rootDir : String) (fs : FileSys) (w : String)
    (row : SheetRow) (rest : List SheetRow)
    (recs : List (String × List (GeneKey × Rat))) (f : QFile)
    (hlook : List.lookup (sheetPath rootDir row) fs = some f) :
    buildRecords rootDir fs w (row :: rest) recs =
      if w ∈ f.cols then
        buildRecords rootDir fs w rest (dictInsert recs row.sampleId (columnDict f w))
      else .error (.MalformedFileError (sheetPath rootDir row)) := by
  rw [buildRecords_cons, hlook]

theorem buildRecords_cons_none (rootDir : String) (fs : FileSys) (w : String)
    (row : SheetRow) (rest : List SheetRow)
    (recs : List (String × List (GeneKey × Rat)))
    (hlook : List.lookup (sheetPath rootDir row) fs = none) :
    buildRecords rootDir fs w (row :: rest) recs =
      .error (.MissingFileError (sheetPath rootDir row)) := by
  rw [buildRecords_cons, hlook]

/-- Shape of a successful records loop: one dict per sheet row, column
labels in sheet order, and every new dict keyed by the shared gene list. -/
theorem buildRecords_ok_shape (rootDir : String) (fs : FileSys) (w : String)
    (L : List GeneKey) (hL : L.Nodup) :
    ∀ (rows : List SheetRow) (recs : List (String × List (GeneKey × Rat))),
    (∀ row ∈ rows, ∃ f, List.lookup (sheetPath rootDir row) fs = some f ∧
        w ∈ f.cols ∧ geneKeysOf f = L) →
    (recs.map Prod.fst ++ rows.map (·.sampleId)).Nodup →
    ∃ recs', buildRecords rootDir fs w rows recs = .ok recs' ∧
      recs'.map Prod.fst = recs.map Prod.fst ++ rows.map (·.sampleId) ∧
      ∀ sc ∈ recs', sc ∈ recs ∨ sc.2.map Prod.fst = L := by
  intro rows
  induction rows with
  | nil =>
    intro recs _ _
    exact ⟨recs, rfl, by simp, fun sc h => Or.inl h⟩
  | cons row rest ih =>
    intro recs hfiles hnodup
    obtain ⟨f, hlook, hw, hkeys⟩ := hfiles row (by simp)
    rw [buildRecords_cons_some _ _ _ _ _ _ _ hlook, if_pos hw]
    have hid : row.sampleId ∉ recs.map Prod.fst := by
      intro hmem
      have := (List.nodup_append.mp hnodup).2.2
      exact this hmem (by simp)
    rw [dictInsert_not_mem _ _ _ hid]
    have hnd' : ((recs ++ [(row.sampleId, columnDict f w)]).map Prod.fst ++
        rest.map (·.sampleId)).Nodup := by
      simpa using hnodup
    obtain ⟨recs', hok, hmap, hsc⟩ :=
      ih (recs ++ [(row.sampleId, columnDict f w)])
        (fun r hr => hfiles r (by simp [hr])) hnd'
    refine ⟨recs', hok, ?_, ?_⟩
    · rw [hmap]; simp
    · intro sc hsc'
      rcases hsc sc hsc' with hin | hL'
      · rcases List.mem_append.mp hin with h | h
        · exact Or.inl h
        · have hx : sc = (row.sampleId, columnDict f w) := by simpa using h
          refine Or.inr ?_
          rw [hx]
          show (columnDict f w).map Prod.fst = L
          rw [columnDict_keys f w (by rw [hkeys]; exact hL), hkeys]
      · exact Or.inr hL'

/-- If some expected file is absent and every present file has the
workflow column, the records loop aborts with `MissingFileError`. -/
theorem buildRecords_missing (rootDir : String) (fs : FileSys) (w : String) :
    ∀ (rows : List SheetRow) (recs : List (String × List (GeneKey × Rat))),
    (∃ row ∈ rows, List.lookup (sheetPath rootDir row) fs = none) →
    (∀ row ∈ rows, ∀ f, List.lookup (sheetPath rootDir row) fs = some f → w ∈ f.cols) →
    ∃ p, buildRecords rootDir fs w rows recs = .error (.MissingFileError p) := by
  intro rows
  induction rows with
  | nil => rintro recs ⟨row, hrow, -⟩ _; exact absurd hrow (by simp)
  | cons row rest ih =>
    intro recs hmiss hcols
    cases hlook : List.lookup (sheetPath rootDir row) fs with
    | none => exact ⟨sheetPath rootDir row, buildRecords_cons_none _ _ _ _ _ _ hlook⟩
    | some f =>
      rw [buildRecords_cons_some _ _ _ _ _ _ _ hlook,
        if_pos (hcols row (by simp) f hlook)]
      apply ih
      · obtain ⟨r, hr, hrn⟩ := hmiss
        rcases List.mem_cons.mp hr with rfl | hr
        · exact absurd hlook (by rw [hrn]; simp)
        · exact ⟨r, hr, hrn⟩
      · exact fun r hr => hcols r (by simp [hr])

/-- If every expected file is present and some lacks the workflow column,
the records loop aborts with `MalformedFileError`. -/
theorem buildRecords_malformed (rootDir : String) (fs : FileSys) (w : String) :
    ∀ (rows : List SheetRow) (recs : List (String × List (GeneKey × Rat))),
    (∀ row ∈ rows, ∃ f, List.lookup (sheetPath rootDir row) fs = some f) →
    (∃ row ∈ rows, ∃ f, List.lookup (sheetPath rootDir row) fs = some f ∧ w ∉ f.cols) →
    ∃ p, buildRecords rootDir fs w rows recs = .error (.MalformedFileError p) := by
  intro rows
  induction rows with
  | nil => rintro recs _ ⟨row, hrow, -⟩; exact absurd hrow (by simp)
  | cons row rest ih =>
    intro recs hall hbad
    obtain ⟨f, hlook⟩ := hall row (by simp)
    rw [buildRecords_cons_some _ _ _ _ _ _ _ hlook]
    by_cases hw : w ∈ f.cols
    · rw [if_pos hw]
      apply ih
      · exact fun r hr => hall r (by simp [hr])
      · obtain ⟨r, hr, g, hg, hgw⟩ := hbad
        rcases List.mem_cons.mp hr with rfl | hr
        · rw [hlook] at hg
          cases hg
          exact absurd hw hgw
        · exact ⟨r, hr, g, hg, hgw⟩
    · rw [if_neg hw]
      exact ⟨sheetPath rootDir row, rfl⟩

/-! ### The claims -/

/-- Claim C1: among the rows surviving the sample-type and FFPE
restrictions, the paired-sample filter keeps exactly the rows of the
subjects having both a Tumor-flagged and a Normal-flagged row (a surviving
row's projection is in the output iff its subject is paired among the
survivors), and every subject present in the output has both flags
represented in the output. -/
theorem paired_filter_keeps_exactly_paired_subjects
    (df o : LongDF) (ho : get_paired_tcga_exprs df = .ok o) :
    (∀ r ∈ survivors df,
        (projRow r ∈ o.rows ↔ subjPaired (survivors df) (r.getV "subject_id")))
    ∧ (∀ q ∈ o.rows, subjPaired o.rows (q.getV "subject_id")) := by
  obtain ⟨-, rfl⟩ := get_paired_ok_inv df o ho
  constructor
  · intro r hr
    show projRow r ∈ pairedRows df ↔ _
    rw [pairedRows_mem, projRow_subject]
    exact ⟨fun h => h.2, fun h => ⟨⟨r, hr, rfl⟩, h⟩⟩
  · intro q hq
    obtain ⟨⟨r, hr, rfl⟩, hpair⟩ := (pairedRows_mem df q).mp hq
    obtain ⟨⟨r1, hr1, hr1s, hr1t⟩, ⟨r2, hr2, hr2s, hr2n⟩⟩ := hpair
    have hm1 : projRow r1 ∈ pairedRows df := by
      rw [pairedRows_mem, projRow_subject, hr1s]
      exact ⟨⟨r1, hr1, rfl⟩, ⟨r1, hr1, hr1s, hr1t⟩, ⟨r2, hr2, hr2s, hr2n⟩⟩
    have hm2 : projRow r2 ∈ pairedRows df := by
      rw [pairedRows_mem, projRow_subject, hr2s]
      exact ⟨⟨r2, hr2, rfl⟩, ⟨r1, hr1, hr1s, hr1t⟩, ⟨r2, hr2, hr2s, hr2n⟩⟩
    exact ⟨⟨projRow r1, hm1, by rw [projRow_subject, hr1s],
        by rw [projRow_isTumor]; exact hr1t⟩,
      ⟨projRow r2, hm2, by rw [projRow_subject, hr2s],
        by rw [projRow_isNormal]; exact hr2n⟩⟩

theorem paired_filter_keeps_exactly_paired_subjects_witness :
    get_paired_tcga_exprs dfExample = .ok dfExampleOut ∧
    ((∀ r ∈ survivors dfExample,
        (projRow r ∈ dfExampleOut.rows ↔
          subjPaired (survivors dfExample) (r.getV "subject_id")))
     ∧ ∀ q ∈ dfExampleOut.rows, subjPaired dfExampleOut.rows (q.getV "subject_id")) :=
  ⟨by decide,
   paired_filter_keeps_exactly_paired_subjects dfExample dfExampleOut (by decide)⟩

/-- Claim C2: every row of the filter's output is the projection of an
input row that passed both restrictions — a row with an FFPE-matching
`sample_id` (in particular one ending in `-01B` or `-01C`) or with a
`sample_type` outside the three allowed categories contributes nothing to
the output. -/
theorem paired_filter_output_only_from_surviving_rows
    (df o : LongDF) (ho : get_paired_tcga_exprs df = .ok o)
    (q : Row) (hq : q ∈ o.rows) :
    ∃ r ∈ df.rows, landOk r = true ∧ ffpeVal (r.getV "sample_id") = false ∧
      q = projRow r := by
  obtain ⟨-, rfl⟩ := get_paired_ok_inv df o ho
  obtain ⟨⟨r, hr, rfl⟩, -⟩ := (pairedRows_mem df q).mp hq
  rw [survivors_mem] at hr
  exact ⟨r, hr.1, hr.2.1, hr.2.2, rfl⟩

theorem paired_filter_output_only_from_surviving_rows_witness :
    get_paired_tcga_exprs dfExample = .ok dfExampleOut ∧
    projRow rowTumorS1 ∈ dfExampleOut.rows ∧
    ∃ r ∈ dfExample.rows, landOk r = true ∧ ffpeVal (r.getV "sample_id") = false ∧
      projRow rowTumorS1 = projRow r :=
  ⟨by decide, by decide,
   paired_filter_output_only_from_surviving_rows dfExample dfExampleOut (by decide)
     (projRow rowTumorS1) (by decide)⟩

/-- Claim C3, counterexample to the claim as stated: the filter succeeds
on `dfExample`, but applying it a second time to its own output does not
succeed with that output again (the output lacks the `land_sample_type`
and `sample_id` columns the filter requires). -/
theorem paired_filter_not_idempotent_counterexample :
    get_paired_tcga_exprs dfExample = .ok dfExampleOut ∧
    get_paired_tcga_exprs dfExampleOut ≠ .ok dfExampleOut := by
  constructor
  · decide
  · decide

/-- Claim C3 as amended: re-applying the filter to its own output never
succeeds — it always fails with `SchemaError` on `land_sample_type`,
because the output keeps only the five projected analysis columns. -/
theorem paired_filter_second_application_fails
    (df o : LongDF) (ho : get_paired_tcga_exprs df = .ok o) :
    get_paired_tcga_exprs o = .error (.SchemaError "land_sample_type") := by
  obtain ⟨-, rfl⟩ := get_paired_ok_inv df o ho
  have hnot : "land_sample_type" ∉
      ({ cols := projCols, rows := pairedRows df } : LongDF).cols := by
    show "land_sample_type" ∉ projCols
    decide
  rw [get_paired_tcga_exprs, if_neg hnot]

theorem paired_filter_second_application_fails_witness :
    get_paired_tcga_exprs dfExample = .ok dfExampleOut ∧
    get_paired_tcga_exprs dfExampleOut = .error (.SchemaError "land_sample_type") :=
  ⟨by decide, paired_filter_second_application_fails dfExample dfExampleOut (by decide)⟩

/-- Claim C7: on an input table missing any one of the seven required
columns, the filter fails with a `SchemaError`. -/
theorem paired_filter_schema_error_on_missing_column
    (df : LongDF) (c : String) (hc : c ∈ requiredCols) (hmiss : c ∉ df.cols) :
    ∃ c', get_paired_tcga_exprs df = .error (.SchemaError c') := by
  by_cases h1 : "land_sample_type" ∈ df.cols
  · by_cases h2 : "sample_id" ∈ df.cols
    · rw [get_paired_tcga_exprs, if_pos h1, if_pos h2]
      cases hf : projCols.filter (fun x => !df.cols.contains x) with
      | nil =>
        exfalso
        have hcp : c ∈ projCols := by
          fin_cases hc
          · exact absurd h1 hmiss
          · exact absurd h2 hmiss
          · decide
          · decide
          · decide
          · decide
          · decide
        have := List.filter_eq_nil_iff.mp hf c hcp
        simp only [Bool.not_eq_true', Bool.not_eq_false] at this
        exact hmiss (by simpa using this)
      | cons c' cs => exact ⟨c', rfl⟩
    · exact ⟨"sample_id", by rw [get_paired_tcga_exprs, if_pos h1, if_neg h2]⟩
  · exact ⟨"land_sample_type", by rw [get_paired_tcga_exprs, if_neg h1]⟩

theorem paired_filter_schema_error_on_missing_column_witness :
    "land_sample_type" ∈ requiredCols ∧ "land_sample_type" ∉ dfNoLand.cols ∧
    ∃ c', get_paired_tcga_exprs dfNoLand = .error (.SchemaError c') :=
  ⟨by decide, by decide,
   paired_filter_schema_error_on_missing_column dfNoLand "land_sample_type"
     (by decide) (by decide)⟩

/-- Claim C8: on a table with all required columns in which no surviving
subject has both a Tumor and a Normal row, the filter returns an empty
table (with the five projected columns) and raises no error. -/
theorem paired_filter_empty_result_when_no_subject_paired
    (df : LongDF) (hcols : ∀ c ∈ requiredCols, c ∈ df.cols)
    (hnone : ∀ r ∈ survivors df, ¬ subjPaired (survivors df) (r.getV "subject_id")) :
    get_paired_tcga_exprs df = .ok ⟨projCols, []⟩ := by
  rw [get_paired_ok_of_cols df hcols]
  have hnil : pairedRows df = [] := by
    apply List.eq_nil_iff_forall_not_mem.mpr
    intro q hq
    obtain ⟨⟨r, hr, rfl⟩, hpair⟩ := (pairedRows_mem df q).mp hq
    rw [projRow_subject] at hpair
    exact hnone r hr hpair
  rw [hnil]

theorem paired_filter_empty_result_when_no_subject_paired_witness :
    (∀ c ∈ requiredCols, c ∈ dfOnlyTumor.cols) ∧
    (∀ r ∈ survivors dfOnlyTumor,
        ¬ subjPaired (survivors dfOnlyTumor) (r.getV "subject_id")) ∧
    get_paired_tcga_exprs dfOnlyTumor = .ok ⟨projCols, []⟩ :=
  ⟨by decide, by decide,
   paired_filter_empty_result_when_no_subject_paired dfOnlyTumor
     (by decide) (by decide)⟩

/-- Claim C10: the FFPE exclusion drops a surviving-sample-type row
exactly when its `sample_id` contains `-01B` or `-01C` as a substring
anywhere in the string — not only as a trailing suffix. -/
theorem ffpe_exclusion_matches_substring_anywhere
    (df : LongDF) (r : Row) (s : String) (hs : r.getV "sample_id" = .str s) :
    r ∈ survivors df ↔
      r ∈ df.rows ∧ landOk r = true ∧
        ¬((∃ a b : String, s = a ++ "-01B" ++ b) ∨
          (∃ a b : String, s = a ++ "-01C" ++ b)) := by
  rw [survivors_mem, hs]
  have hf : ffpeVal (.str s) = false ↔
      ¬((∃ a b : String, s = a ++ "-01B" ++ b) ∨
        (∃ a b : String, s = a ++ "-01C" ++ b)) := by
    rw [← ffpeVal_str_iff]
    exact ⟨fun h => by simp [h], fun h => by simpa using h⟩
  rw [hf]

/-- Claim C4, counterexample to the claim as stated: an assembly run over
two files that share the identical gene index `[gkDup, gkDup]` and both
contain the workflow column, but whose sheet rows carry the same sample
identifier, yields one sample column (the `records` dict overwrites the
first) and one matrix row (the per-file dict collapses the duplicated
gene key) instead of two of each. -/
theorem assembler_column_and_row_count_counterexample :
    (∀ row ∈ rnaseqRows sheetDup,
        List.lookup (sheetPath "root" row) fsDup = some qfDup ∧
        "tpm_unstranded" ∈ qfDup.cols ∧ geneKeysOf qfDup = [gkDup, gkDup]) ∧
    format_tcga_rnaseq sheetDup "root" fsDup "tpm_unstranded" = .ok wdfDup ∧
    (rnaseqRows sheetDup).length = 2 ∧
    wdfDup.sampleCols.length ≠ 2 ∧
    wdfDup.indexKeys.length ≠ ([gkDup, gkDup] : List GeneKey).length := by
  refine ⟨by decide, by decide, by decide, by decide, by decide⟩

/-- Claim C4 as amended: for an assembly run over N ≥ 1 sample files that
share an identical, duplicate-free gene index, whose sample identifiers
are pairwise distinct, and that all contain the requested workflow column,
the assembled matrix has exactly N sample columns labelled by the sheet's
sample identifiers in order, and its row index is exactly the shared gene
index. -/
theorem assembler_matrix_shape
    (sheet : List SheetRow) (rootDir : String) (fs : FileSys) (w : String)
    (L : List GeneKey)
    (hne : rnaseqRows sheet ≠ [])
    (hL : L.Nodup)
    (hids : ((rnaseqRows sheet).map (·.sampleId)).Nodup)
    (hfiles : ∀ row ∈ rnaseqRows sheet, ∃ f,
        List.lookup (sheetPath rootDir row) fs = some f ∧ w ∈ f.cols ∧
        geneKeysOf f = L) :
    ∃ wdf, format_tcga_rnaseq sheet rootDir fs w = .ok wdf ∧
      wdf.sampleCols.map Prod.fst = (rnaseqRows sheet).map (·.sampleId) ∧
      wdf.sampleCols.length = (rnaseqRows sheet).length ∧
      wdf.indexKeys = L := by
  obtain ⟨recs', hok, hmap, hsc⟩ :=
    buildRecords_ok_shape rootDir fs w L hL (rnaseqRows sheet) [] hfiles
      (by simpa using hids)
  have hmap' : recs'.map Prod.fst = (rnaseqRows sheet).map (·.sampleId) := by
    simpa using hmap
  refine ⟨⟨keyUnion (recs'.map (fun sc => sc.2.map Prod.fst)), recs'⟩, ?_, hmap', ?_, ?_⟩
  · rw [format_tcga_rnaseq, hok]
    rfl
  · have := congrArg List.length hmap'
    simpa using this
  · apply keyUnion_const
    · intro h0
      have hr0 : recs' = [] := by
        cases recs' with
        | nil => rfl
        | cons a l => exact absurd h0 (by simp)
      rw [hr0] at hmap'
      exact hne (by simpa using hmap'.symm)
    · intro x hx
      obtain ⟨sc, hsc', rfl⟩ := List.mem_map.mp hx
      rcases hsc sc hsc' with h | h
      · exact absurd h (List.not_mem_nil sc)
      · exact h

theorem assembler_matrix_shape_witness :
    rnaseqRows sheetGood ≠ [] ∧
    Lgood.Nodup ∧
    ((rnaseqRows sheetGood).map (·.sampleId)).Nodup ∧
    ∃ wdf, format_tcga_rnaseq sheetGood "root" fsGood "tpm_unstranded" = .ok wdf ∧
      wdf.sampleCols.map Prod.fst = (rnaseqRows sheetGood).map (·.sampleId) ∧
      wdf.sampleCols.length = (rnaseqRows sheetGood).length ∧
      wdf.indexKeys = Lgood :=
  ⟨by decide, by decide, by decide,
   assembler_matrix_shape sheetGood "root" fsGood "tpm_unstranded" Lgood
     (by decide) (by decide) (by decide)
     (by
       intro row hr
       fin_cases hr
       · exact ⟨qf1, by decide, by decide, by decide⟩
       · exact ⟨qf2, by decide, by decide, by decide⟩)⟩

/-- Claim C5: evaluation of the assembler on a concrete well-formed run.
The returned frame keeps the composite `(gene_id, gene_name)` key as its
row index and has only the sample column `"S1"`: the `reset_index` of
source line 166 is discarded (its `rename(..., inplace=True)` mutates a
temporary and returns `None`), so the gene key is never reset into plain
columns. -/
theorem assembler_returns_gene_key_indexed_frame :
    format_tcga_rnaseq sheet1 "root" fsGood "tpm_unstranded" =
      .ok ⟨[⟨"ENSG1", "G1"⟩, ⟨"ENSG2", "G2"⟩],
           [("S1", [(⟨"ENSG1", "G1"⟩, 5), (⟨"ENSG2", "G2"⟩, 7)])]⟩ := by
  decide

/-- Claim C6: when some expected file path is absent (and the present
files are otherwise fine) the assembler fails with `MissingFileError`, and
when every file is present but some lacks the requested workflow column it
fails with `MalformedFileError`. -/
theorem assembler_error_taxonomy
    (sheet : List SheetRow) (rootDir : String) (fs : FileSys) (w : String) :
    ((∃ row ∈ rnaseqRows sheet, List.lookup (sheetPath rootDir row) fs = none) →
     (∀ row ∈ rnaseqRows sheet, ∀ f,
        List.lookup (sheetPath rootDir row) fs = some f → w ∈ f.cols) →
     ∃ p, format_tcga_rnaseq sheet rootDir fs w = .error (.MissingFileError p)) ∧
    ((∀ row ∈ rnaseqRows sheet, ∃ f, List.lookup (sheetPath rootDir row) fs = some f) →
     (∃ row ∈ rnaseqRows sheet, ∃ f,
        List.lookup (sheetPath rootDir row) fs = some f ∧ w ∉ f.cols) →
     ∃ p, format_tcga_rnaseq sheet rootDir fs w = .error (.MalformedFileError p)) := by
  constructor
  · intro hmiss hcols
    obtain ⟨p, hp⟩ := buildRecords_missing rootDir fs w (rnaseqRows sheet) [] hmiss hcols
    exact ⟨p, by rw [format_tcga_rnaseq, hp]; rfl⟩
  · intro hall hbad
    obtain ⟨p, hp⟩ := buildRecords_malformed rootDir fs w (rnaseqRows sheet) [] hall hbad
    exact ⟨p, by rw [format_tcga_rnaseq, hp]; rfl⟩

theorem assembler_error_taxonomy_witness :
    ((∃ row ∈ rnaseqRows sheet1,
        List.lookup (sheetPath "root" row) fsMissing = none) ∧
     ∃ p, format_tcga_rnaseq sheet1 "root" fsMissing "tpm_unstranded" =
        .error (.MissingFileError p)) ∧
    ((∃ row ∈ rnaseqRows sheet1, ∃ f,
        List.lookup (sheetPath "root" row) fsNoCol = some f ∧
        "tpm_unstranded" ∉ f.cols) ∧
     ∃ p, format_tcga_rnaseq sheet1 "root" fsNoCol "tpm_unstranded" =
        .error (.MalformedFileError p)) :=
  ⟨⟨by decide,
    (assembler_error_taxonomy sheet1 "root" fsMissing "tpm_unstranded").1
      (by decide)
      (by
        intro row hr f hf
        rw [show List.lookup (sheetPath "root" row) fsMissing = none from rfl] at hf
        cases hf)⟩,
   ⟨⟨⟨"F1", "f1", "S1", "Transcriptome Profiling"⟩, by decide, qfNoCol,
      by decide, by decide⟩,
    (assembler_error_taxonomy sheet1 "root" fsNoCol "tpm_unstranded").2
      (by
        intro row hr
        fin_cases hr
        exact ⟨qfNoCol, by decide⟩)
      ⟨⟨"F1", "f1", "S1", "Transcriptome Profiling"⟩, by decide, qfNoCol,
        by decide, by decide⟩⟩⟩

theorem ffpe_exclusion_matches_substring_anywhere_witness :
    rowMid.getV "sample_id" = .str "TCGA-01B-02A" ∧
    rowMid ∉ survivors dfMid ∧
    (rowMid ∈ survivors dfMid ↔
      rowMid ∈ dfMid.rows ∧ landOk rowMid = true ∧
        ¬((∃ a b : String, "TCGA-01B-02A" = a ++ "-01B" ++ b) ∨
          (∃ a b : String, "TCGA-01B-02A" = a ++ "-01C" ++ b))) :=
  ⟨rfl, by decide,
   ffpe_exclusion_matches_substring_anywhere dfMid rowMid "TCGA-01B-02A" rfl⟩
